import Mathlib

/-!
Verification of the sonic repository: a shallow embedding of the kqueue
reactor (`internal/poll_bsd.go`, `internal/eventfd.go`, the `sonic.IO`
facade) and of the WebSocket stream state machine, together with theorems
settling the specified properties.

Machine integers are modelled as `Nat`/`Int`; byte sequences as `List Nat`
(each entry a byte value); Go error values as an explicit error type;
handlers as abstract identifiers whose execution is recorded in a log.
-/

namespace Sonic

/-- Go error values that the embedded code can return:
`io.EOF`, a raw kernel error, and `sonicerrors.ErrTimeout`. -/
inductive GoErr
  | eof
  | osError
  | errTimeout
deriving DecidableEq, Repr

/-! ## Kqueue constants (`syscall` package values used by poll_bsd.go) -/

/-- `syscall.EV_ADD = 0x1`. -/
def EV_ADD : Nat := 1

/-- `syscall.EV_DELETE = 0x2`. -/
def EV_DELETE : Nat := 2

/-- `syscall.EV_ONESHOT = 0x10`. -/
def EV_ONESHOT : Nat := 16

/-- `PollerReadEvent = -EVFILT_READ = 1` (poll_bsd.go lines 20-25,
with `syscall.EVFILT_READ = -1`). Used as a bit in a Slot's event mask. -/
def PollerReadEvent : Nat := 1

/-- `PollerWriteEvent = -EVFILT_WRITE = 2` (poll_bsd.go lines 20-25,
with `syscall.EVFILT_WRITE = -2`). Used as a bit in a Slot's event mask. -/
def PollerWriteEvent : Nat := 2

/-- A kqueue change-list entry (`syscall.Kevent_t`) as far as the embedded
code inspects it: identifier (fd), filter, and flags. The opaque `Udata`
slot pointer is not modelled; the change list is only ever appended to. -/
structure Kevent_t where
  Ident : Int
  Filter : Int
  Flags : Nat
deriving DecidableEq, Repr

/-- `createEvent(flags, filter, slot, 0)` (poll_bsd.go lines 287-304) for a
non-timer filter: records the flags and the filter; `Ident` is filled in by
`poller.set`. -/
def createEvent (flags : Nat) (filter : Int) : Kevent_t :=
  { Ident := 0, Filter := filter, Flags := flags }

/-- A Slot (interest record): file descriptor and event mask
(`internal.Slot`, used by poll_bsd.go). The two handler entries are not
needed by the claims about arming/disarming. -/
structure Slot where
  Fd : Int
  Events : Nat
deriving DecidableEq, Repr

/-- The `poller` struct of poll_bsd.go, restricted to the state the claims
observe.  Posted handlers are abstract identifiers (`Nat`); `executed`
logs, in order, the handlers run by `executePost`; `wakerBytes` counts
bytes written to the waker pipe and not yet drained; `wakerClosed` and
`fdClosed` record the close side effects of `Close`. -/
structure PollerState where
  changes : List Kevent_t
  posts : List Nat
  pending : Int
  closed : Bool
  wakerClosed : Bool
  fdClosed : Bool
  executed : List Nat
  wakerBytes : Nat
deriving DecidableEq, Repr

/-- `poller.set(fd, ev)` (poll_bsd.go lines 281-285): stamp the fd into the
event and append it to the change list. -/
def pollerSet (p : PollerState) (fd : Int) (ev : Kevent_t) : PollerState :=
  { p with changes := p.changes ++ [{ ev with Ident := fd }] }

/-- `poller.setRead(fd, flags, slot)` (poll_bsd.go lines 233-241): if the
read bit is not set in the slot's mask, increment `pending`, set the bit
and append the change; otherwise do nothing. -/
def setRead (p : PollerState) (fd : Int) (flags : Nat) (s : Slot) :
    PollerState × Slot :=
  if s.Events &&& PollerReadEvent ≠ PollerReadEvent then
    (pollerSet { p with pending := p.pending + 1 } fd
       (createEvent flags (-(PollerReadEvent : Int))),
     { s with Events := s.Events ||| PollerReadEvent })
  else (p, s)

/-- `poller.SetRead(slot)` (poll_bsd.go lines 229-231): arm a one-shot
read interest. -/
def SetRead (p : PollerState) (s : Slot) : PollerState × Slot :=
  setRead p s.Fd (EV_ADD ||| EV_ONESHOT) s

/-- `poller.SetWrite(slot)` (poll_bsd.go lines 243-251). -/
def SetWrite (p : PollerState) (s : Slot) : PollerState × Slot :=
  if s.Events &&& PollerWriteEvent ≠ PollerWriteEvent then
    (pollerSet { p with pending := p.pending + 1 } s.Fd
       (createEvent (EV_ADD ||| EV_ONESHOT) (-(PollerWriteEvent : Int))),
     { s with Events := s.Events ||| PollerWriteEvent })
  else (p, s)

/-- `poller.DelRead(slot)` (poll_bsd.go lines 253-261): if the read bit is
set, decrement `pending`, clear the bit with XOR and append an `EV_DELETE`
change; otherwise do nothing. -/
def DelRead (p : PollerState) (s : Slot) : PollerState × Slot :=
  if s.Events &&& PollerReadEvent = PollerReadEvent then
    (pollerSet { p with pending := p.pending - 1 } s.Fd
       (createEvent EV_DELETE (-(PollerReadEvent : Int))),
     { s with Events := s.Events ^^^ PollerReadEvent })
  else (p, s)

/-- `poller.DelWrite(slot)` (poll_bsd.go lines 263-271). -/
def DelWrite (p : PollerState) (s : Slot) : PollerState × Slot :=
  if s.Events &&& PollerWriteEvent = PollerWriteEvent then
    (pollerSet { p with pending := p.pending - 1 } s.Fd
       (createEvent EV_DELETE (-(PollerWriteEvent : Int))),
     { s with Events := s.Events ^^^ PollerWriteEvent })
  else (p, s)

/-- `poller.Close()` (poll_bsd.go lines 125-132): compare-and-swap the
closed flag; on the second and later calls return `io.EOF` without any
side effect; on the first call close the waker and the kqueue fd. -/
def Close (p : PollerState) : Option GoErr × PollerState :=
  if p.closed then (some GoErr.eof, p)
  else (none, { p with closed := true, wakerClosed := true, fdClosed := true })

/-- `poller.Post(handler)` (poll_bsd.go lines 138-148): under the mutex
append the handler to `posts` and increment `pending`; then write one byte
to the waker. `wakerWriteOk` models whether that write succeeds; on failure
the write error is returned and nothing is rolled back. -/
def Post (p : PollerState) (handler : Nat) (wakerWriteOk : Bool) :
    Option GoErr × PollerState :=
  let q := { p with posts := p.posts ++ [handler], pending := p.pending + 1 }
  if wakerWriteOk then (none, { q with wakerBytes := q.wakerBytes + 1 })
  else (some GoErr.osError, q)

/-- `poller.executePost()` (poll_bsd.go lines 212-227), invoked by `Poll`
when the ready event is the waker's fd (lines 191-194): drain the waker
pipe until it is empty, then under the mutex run every queued handler in
order, decrementing `pending` for each, and clear the queue. -/
def executePost (p : PollerState) : PollerState :=
  { p with
    wakerBytes := 0,
    executed := p.executed ++ p.posts,
    pending := p.pending - p.posts.length,
    posts := [] }

/-- `poller.Poll(timeoutMs)` lines 157-162: the `syscall.Timespec` pointer
passed to `syscall.Kevent`. For `timeoutMs >= 0` the pointer holds the
timeout in nanoseconds; for a negative argument the pointer is nil,
modelled as `none`. -/
def pollKeventTimeout (timeoutMs : Int) : Option Int :=
  if 0 ≤ timeoutMs then some (timeoutMs * 1000000) else none

/-- kevent(2) semantics of the external kernel interface: with a nil
timeout pointer the call waits indefinitely until an event is ready; it
returns immediately only with a (possibly zero) timespec. So the call
blocks exactly when the pointer is nil and no registered event is ready. -/
def keventWaitsIndefinitely (timeout : Option Int) (nReady : Nat) : Bool :=
  timeout.isNone && nReady == 0

/-- `IO.PollOne` (sonic.go lines 110-121) calls `poller.Poll(-1)` while its
comment states that it "will not block the calling goroutine". -/
def PollOneTimeoutMs : Int := -1

/-- The shape of a Go `return` statement's value list in `NewEventFd`
(internal/eventfd.go lines 15-30): the declared result type is the pair
`(*EventFd, error)`, but the failure branch executes
`return os.NewSyscallError("eventfd", err)`, a single value. -/
inductive NewEventFdReturn
  | singleValue (err : GoErr)
  | pair (fd : Option Int) (err : Option GoErr)
deriving DecidableEq, Repr

/-- Whether a `NewEventFd` return value has the declared two-value shape. -/
def NewEventFdReturn.isPair : NewEventFdReturn → Bool
  | .pair _ _ => true
  | _ => false

/-- `NewEventFd` (internal/eventfd.go lines 15-30) as written, as a
function of the `eventfd2` syscall outcome `(fd, errno)`: on a nonzero
errno it closes the fd and executes `return os.NewSyscallError(...)`,
producing one value where the signature declares two; on success it
returns the pair `(&EventFd{fd}, nil)`. -/
def NewEventFd (fd : Int) (errno : Nat) : NewEventFdReturn :=
  if errno ≠ 0 then .singleValue GoErr.osError
  else .pair (some fd) none

/-- A concrete freshly created poller state (waker registered, nothing
armed, nothing posted), used to instantiate the universally quantified
poller theorems. -/
def freshPoller : PollerState :=
  { changes := [], posts := [], pending := 0, closed := false,
    wakerClosed := false, fdClosed := false, executed := [], wakerBytes := 0 }

end Sonic

namespace Sonic.Websocket

/-!
The WebSocket stream implementation of this repository is not among the
given source files; only its test suite (`codec/websocket/stream_test.go`)
is. The definitions below are therefore modelled from the specification
(sections 4.2 and 4.3: framing, control-frame validity, close payloads,
the state table and the read/write pipelines), with the literal byte
scenarios of section 8 as anchor points.
-/

/-- Modelled from the spec: the stream state enum (section 4.3),
`StateHandshake .. StateTerminated` in the tests. -/
inductive StreamState
  | handshake
  | active
  | closedByUs
  | closedByPeer
  | closeAcked
  | terminated
deriving DecidableEq, Repr

/-- Modelled from the spec: message types reported by reads and the
control callback (`TypeNone`, `TypeText`, ... in the tests). -/
inductive MessageType
  | none
  | text
  | binary
  | close
  | ping
  | pong
deriving DecidableEq, Repr

/-- Modelled from the spec: the stream-level error kinds of section 7
relevant to the read pipeline (`ErrInvalidControlFrame`, `io.EOF`,
`UnexpectedOpcode`); `bufferUnderflow` stands for a read that would have
to suspend and refill from the underlying stream. -/
inductive WsError
  | invalidControlFrame
  | eof
  | unexpectedOpcode
  | bufferUnderflow
deriving DecidableEq, Repr

/-- RFC 6455 opcode 0 (continuation). -/
def OpcodeContinuation : Nat := 0

/-- RFC 6455 opcode 1 (text). -/
def OpcodeText : Nat := 1

/-- RFC 6455 opcode 2 (binary). -/
def OpcodeBinary : Nat := 2

/-- RFC 6455 opcode 8 (close). -/
def OpcodeClose : Nat := 8

/-- RFC 6455 opcode 9 (ping). -/
def OpcodePing : Nat := 9

/-- RFC 6455 opcode 10 (pong). -/
def OpcodePong : Nat := 10

/-- Close status code 1000 (normal closure). -/
def CloseNormal : Nat := 1000

/-- Close status code 1002 (protocol error). -/
def CloseProtocolError : Nat := 1002

/-- Modelled from the spec: the byte-wise masking transform of section
4.2, `p[i] XOR key[i mod 4]`, applied from position `i`. -/
def maskFrom (key : List Nat) (i : Nat) : List Nat → List Nat
  | [] => []
  | b :: bs => (b ^^^ key.getD (i % 4) 0) :: maskFrom key (i + 1) bs

/-- Masking / unmasking of a payload (the transform is an involution). -/
def maskBytes (key : List Nat) (p : List Nat) : List Nat :=
  maskFrom key 0 p

/-- Modelled from the spec: an RFC 6455 frame (section 3 data model):
FIN bit, 4-bit opcode, mask bit with 4-byte key, payload bytes. The
reserved bits are not used by this repository. -/
structure Frame where
  fin : Bool
  opcode : Nat
  masked : Bool
  maskKey : List Nat
  payload : List Nat
deriving DecidableEq, Repr

/-- `Frame.IsFin` of the tests. -/
def Frame.IsFin (f : Frame) : Bool := f.fin

/-- `Frame.IsMasked` of the tests. -/
def Frame.IsMasked (f : Frame) : Bool := f.masked

/-- `Frame.IsClose` of the tests. -/
def Frame.IsClose (f : Frame) : Bool := f.opcode == OpcodeClose

/-- `Frame.IsPong` of the tests. -/
def Frame.IsPong (f : Frame) : Bool := f.opcode == OpcodePong

/-- The payload after undoing the mask when the mask bit is set
(`Frame.Unmask` followed by `Frame.Payload` in the tests). -/
def Frame.unmaskedPayload (f : Frame) : List Nat :=
  if f.masked then maskBytes f.maskKey f.payload else f.payload

/-- Modelled from the spec: `EncodeCloseFramePayload(code, reason)`
(section 4.2 close frame payload): two bytes of big-endian status code
followed by the reason bytes. -/
def EncodeCloseFramePayload (code : Nat) (reason : List Nat) : List Nat :=
  (code / 256 % 256) :: (code % 256) :: reason

/-- Modelled from the spec: `DecodeCloseFramePayload(bytes)`: the
big-endian status code from the first two bytes and the remaining reason
bytes. -/
def DecodeCloseFramePayload (b : List Nat) : Nat × List Nat :=
  match b with
  | b0 :: b1 :: rest => (b0 * 256 + b1, rest)
  | _ => (0, [])

/-- Split off exactly `n` bytes, or fail. -/
def takeExact (n : Nat) (bs : List Nat) : Option (List Nat × List Nat) :=
  if n ≤ bs.length then some (bs.take n, bs.drop n) else none

/-- Big-endian value of a byte sequence. -/
def beVal (bs : List Nat) : Nat :=
  bs.foldl (fun a b => a * 256 + b) 0

/-- Modelled from the spec: the payload-length field of section 4.2:
0..125 directly in the 7-bit field, 126 with a 16-bit big-endian
extension, 127 with a 64-bit big-endian extension. -/
def parseLen (len7 : Nat) (rest : List Nat) : Option (Nat × List Nat) :=
  if len7 ≤ 125 then some (len7, rest)
  else if len7 = 126 then
    match takeExact 2 rest with
    | some (ext, r) => some (beVal ext, r)
    | none => none
  else
    match takeExact 8 rest with
    | some (ext, r) => some (beVal ext, r)
    | none => none

/-- Modelled from the spec: frame unpacking per RFC 6455 section 5.2
(section 4.2 pack/unpack contract). Reads one frame from the front of the
buffer: FIN/opcode byte, mask/7-bit-length byte, the length extension
when the 7-bit field is 126 or 127, the 4-byte key when the mask bit is
set, then the payload; returns the frame and the remaining bytes, or
`none` when the buffer holds no complete frame. -/
def decodeFrame (bs : List Nat) : Option (Frame × List Nat) :=
  match bs with
  | b0 :: b1 :: rest =>
    match parseLen (b1 % 128) rest with
    | none => none
    | some (plen, r1) =>
      match (if b1 / 128 % 2 == 1 then takeExact 4 r1 else some ([], r1)) with
      | none => none
      | some (key, r2) =>
        match takeExact plen r2 with
        | none => none
        | some (pl, r3) =>
          some ({ fin := b0 / 128 % 2 == 1, opcode := b0 % 16,
                  masked := b1 / 128 % 2 == 1,
                  maskKey := key, payload := pl }, r3)
  | _ => none

/-- Modelled from the spec: control opcodes are Close, Ping and Pong
(section 4.2 control-frame validity). -/
def isControlOpcode (op : Nat) : Bool :=
  op == OpcodeClose || op == OpcodePing || op == OpcodePong

/-- Modelled from the spec: a control frame is valid iff FIN is set and
the payload length is at most 125 (section 4.2). -/
def validControl (f : Frame) : Bool :=
  f.fin && f.payload.length ≤ 125

/-- The message type reported for an opcode. -/
def messageTypeOf (op : Nat) : MessageType :=
  if op = OpcodeText then .text
  else if op = OpcodeBinary then .binary
  else if op = OpcodeClose then .close
  else if op = OpcodePing then .ping
  else if op = OpcodePong then .pong
  else .none

/-- A client-role frame to be sent: FIN set, masked with the given key,
payload stored in masked form (the tests unmask replies before
inspecting them). -/
def mkMaskedFrame (key : List Nat) (op : Nat) (pl : List Nat) : Frame :=
  { fin := true, opcode := op, masked := true, maskKey := key,
    payload := maskBytes key pl }

/-- Modelled from the spec: the stream of section 3 (data model),
restricted to the state the claims observe: protocol state, source
buffer bytes, pending control replies, the stored fragmentation opcode,
the pseudo-random mask key the client stamps on its next outgoing
frames, the log of control-callback invocations, and the frames flushed
to the underlying stream. -/
structure WsStream where
  state : StreamState
  src : List Nat
  pending : List Frame
  fragOpcode : Option Nat
  maskKey : List Nat
  controlLog : List (MessageType × List Nat)
  written : List Frame
deriving DecidableEq, Repr

/-- A stream in state Active with the given pre-seeded source buffer and
mask key, as the tests build with `ws.state = StateActive; ws.init(...)`. -/
def mkActiveStream (src : List Nat) (key : List Nat) : WsStream :=
  { state := .active, src := src, pending := [], fragOpcode := none,
    maskKey := key, controlLog := [], written := [] }

/-- Modelled from the spec: the read-pipeline loop of `next_message`
(section 4.3), with explicit fuel. Each iteration reads one frame from
the source buffer. A control frame is validated; an invalid one enqueues
a masked Close(1002) reply, moves the state to ClosedByUs and completes
the read with `InvalidControlFrame` (the reply stays pending, per
scenario 3). A valid Ping enqueues a masked Pong with the same payload; a
Close enqueues a masked echo reply and moves the state to ClosedByPeer;
the control callback is invoked, the pending replies are flushed, and the
read completes with EOF — on a stream still Active this EOF terminates it
(scenario 4 and the section 9 design note). A data frame's unmasked
payload is accumulated; a non-continuation opcode is recorded as the
fragmentation opcode, continuation frames must follow one, and FIN
completes the message with the recorded type. -/
def nextMessageAux : Nat → WsStream → List Nat → Option Nat →
    (MessageType × List Nat × Option WsError) × WsStream
  | 0, s, _, fragOp =>
    ((.none, [], some .bufferUnderflow), { s with fragOpcode := fragOp })
  | fuel + 1, s, acc, fragOp =>
    if s.state = .terminated then
      ((.none, [], some .eof), { s with fragOpcode := fragOp })
    else
      match decodeFrame s.src with
      | Option.none =>
        ((.none, [], some .bufferUnderflow), { s with fragOpcode := fragOp })
      | Option.some (f, rest) =>
        let s1 : WsStream := { s with src := rest }
        if isControlOpcode f.opcode then
          if validControl f then
            let pl := f.unmaskedPayload
            let s2 := if f.opcode = OpcodePing then
                { s1 with pending :=
                    s1.pending ++ [mkMaskedFrame s1.maskKey OpcodePong pl] }
              else s1
            let s3 := if f.opcode = OpcodeClose then
                { s2 with
                  pending := s2.pending ++ [mkMaskedFrame s2.maskKey OpcodeClose pl],
                  state := .closedByPeer }
              else s2
            let s4 := { s3 with controlLog :=
                s3.controlLog ++ [(messageTypeOf f.opcode, pl)] }
            let s5 := { s4 with
                        written := s4.written ++ s4.pending,
                        pending := [] }
            let s6 := if s5.state = .active then
                { s5 with state := .terminated }
              else s5
            ((.none, [], some .eof), { s6 with fragOpcode := fragOp })
          else
            ((.none, [], some .invalidControlFrame),
             { s1 with
               pending := s1.pending ++
                 [mkMaskedFrame s1.maskKey OpcodeClose
                   (EncodeCloseFramePayload CloseProtocolError [])],
               state := .closedByUs, fragOpcode := fragOp })
        else
          let pl := f.unmaskedPayload
          let acc1 := acc ++ pl
          if f.opcode = OpcodeContinuation then
            match fragOp with
            | Option.none =>
              ((.none, [], some .unexpectedOpcode),
               { s1 with fragOpcode := Option.none })
            | Option.some op =>
              if f.fin then
                ((messageTypeOf op, acc1, Option.none),
                 { s1 with fragOpcode := Option.none })
              else nextMessageAux fuel s1 acc1 (Option.some op)
          else
            match fragOp with
            | Option.some _ =>
              ((.none, [], some .unexpectedOpcode),
               { s1 with fragOpcode := fragOp })
            | Option.none =>
              if f.fin then
                ((messageTypeOf f.opcode, acc1, Option.none),
                 { s1 with fragOpcode := Option.none })
              else nextMessageAux fuel s1 acc1 (Option.some f.opcode)

/-- `NextMessage` on the stream: run the read loop with enough fuel (each
frame occupies at least two source bytes). Returns the message type, the
assembled payload, the error (if any) and the successor stream. -/
def NextMessage (s : WsStream) :
    (MessageType × List Nat × Option WsError) × WsStream :=
  nextMessageAux (s.src.length + 1) s [] s.fragOpcode

/-- Modelled from the spec: `NextFrame` delivers the next frame from the
source buffer and applies the close-handshake transitions of the state
table (section 4.3): a peer Close on an Active stream enqueues a masked
echo reply and moves to ClosedByPeer; a peer Close on a ClosedByUs stream
acknowledges our close and moves to CloseAcked. -/
def NextFrame (s : WsStream) : Except WsError Frame × WsStream :=
  match decodeFrame s.src with
  | Option.none => (.error .bufferUnderflow, s)
  | Option.some (f, rest) =>
    let s1 : WsStream := { s with src := rest }
    if f.opcode = OpcodeClose then
      if s1.state = .active then
        (.ok f,
         { s1 with
           pending := s1.pending ++
             [mkMaskedFrame s1.maskKey OpcodeClose f.unmaskedPayload],
           state := .closedByPeer })
      else if s1.state = .closedByUs then
        (.ok f, { s1 with state := .closeAcked })
      else (.ok f, s1)
    else (.ok f, s1)

/-- Modelled from the spec: `Close(code, reason)` on an Active stream
(section 4.3 state table and write pipeline): drain any pending replies,
then write a single FIN, masked Close frame whose payload encodes the
code and reason, and move the state to ClosedByUs. On a stream not
Active the call fails. -/
def Close (s : WsStream) (code : Nat) (reason : List Nat) :
    Option WsError × WsStream :=
  if s.state = .active then
    (Option.none,
     { s with
       written := s.written ++ s.pending ++
         [mkMaskedFrame s.maskKey OpcodeClose
           (EncodeCloseFramePayload code reason)],
       pending := [],
       state := .closedByUs })
  else (some .eof, s)

/-- The UTF-8 bytes of the reason string used by the close-handshake
scenario. -/
def byeBytes : List Nat := [98, 121, 101]

/-- `FramesIn bs fs rest` states that the byte buffer `bs` parses,
frame by frame, into the frames `fs` followed by the bytes `rest`. -/
inductive FramesIn : List Nat → List Frame → List Nat → Prop
  | nil (bs : List Nat) : FramesIn bs [] bs
  | cons {bs mid rest : List Nat} {f : Frame} {fs : List Frame} :
      decodeFrame bs = some (f, mid) → FramesIn mid fs rest →
      FramesIn bs (f :: fs) rest

/-- The FIN pattern of a fragmented message: every frame but the last has
FIN clear, the last has FIN set. -/
def FinPattern : List Frame → Prop
  | [] => True
  | [f] => f.fin = true
  | f :: g :: rest => f.fin = false ∧ FinPattern (g :: rest)

/-- The masked Close(1000, "bye") frame the client sends in the
close-handshake scenario. -/
def closeByeFrame (key : List Nat) : Frame :=
  mkMaskedFrame key OpcodeClose (EncodeCloseFramePayload CloseNormal byeBytes)

/-- The server's Close reply `88 05 03 E8 "bye"` of the close-handshake
scenario, as raw bytes. -/
def serverCloseReplyBytes : List Nat := [136, 5, 3, 232, 98, 121, 101]

/-- The server's Close reply of the close-handshake scenario, as the
frame those bytes decode to. -/
def serverCloseReplyFrame : Frame :=
  { fin := true, opcode := 8, masked := false, maskKey := [],
    payload := [3, 232, 98, 121, 101] }

/-- The first fragment of the concrete fragmented-read scenario:
`01 02 01 02` (text, FIN clear, payload `{01,02}`). -/
def c1frame1 : Frame :=
  { fin := false, opcode := 1, masked := false, maskKey := [], payload := [1, 2] }

/-- The second fragment of the concrete fragmented-read scenario:
`80 02 03 04` (continuation, FIN set, payload `{03,04}`). -/
def c1frame2 : Frame :=
  { fin := true, opcode := 0, masked := false, maskKey := [], payload := [3, 4] }

end Sonic.Websocket

namespace Sonic

/-! ## Reactor theorems -/

theorem or_bit_armed (e R : Nat) : (e ||| R) &&& R = R := by
  apply Nat.eq_of_testBit_eq
  intro i
  simp [Nat.testBit_or, Nat.testBit_and]
  tauto

theorem xor_bit_cleared (e R : Nat) (hE : e &&& R = R) : (e ^^^ R) &&& R = 0 := by
  apply Nat.eq_of_testBit_eq
  intro i
  have h2 := congrArg (fun n => n.testBit i) hE
  simp only [Nat.testBit_and] at h2
  simp only [Nat.testBit_xor, Nat.testBit_and, Nat.zero_testBit]
  cases he : e.testBit i <;> cases hr : R.testBit i <;> simp_all

theorem SetRead_spec (p : PollerState) (s : Slot) :
    (s.Events &&& PollerReadEvent ≠ PollerReadEvent →
      SetRead p s =
        ({ p with pending := p.pending + 1, changes := p.changes ++ [{ Ident := s.Fd, Filter := -(PollerReadEvent : Int), Flags := EV_ADD ||| EV_ONESHOT }] }, { s with Events := s.Events ||| PollerReadEvent })) ∧
    (s.Events &&& PollerReadEvent = PollerReadEvent → SetRead p s = (p, s)) ∧
    SetRead (SetRead p s).1 (SetRead p s).2 = SetRead p s := by
  refine ⟨fun h => by simp [SetRead, setRead, h, pollerSet, createEvent],
          fun h => by simp [SetRead, setRead, h], ?_⟩
  by_cases h : s.Events &&& PollerReadEvent = PollerReadEvent
  · simp [SetRead, setRead, h]
  · simp [SetRead, setRead, h, pollerSet, createEvent, or_bit_armed]

theorem SetWrite_spec (p : PollerState) (s : Slot) :
    (s.Events &&& PollerWriteEvent ≠ PollerWriteEvent →
      SetWrite p s =
        ({ p with pending := p.pending + 1, changes := p.changes ++ [{ Ident := s.Fd, Filter := -(PollerWriteEvent : Int), Flags := EV_ADD ||| EV_ONESHOT }] }, { s with Events := s.Events ||| PollerWriteEvent })) ∧
    (s.Events &&& PollerWriteEvent = PollerWriteEvent → SetWrite p s = (p, s)) ∧
    SetWrite (SetWrite p s).1 (SetWrite p s).2 = SetWrite p s := by
  refine ⟨fun h => by simp [SetWrite, h, pollerSet, createEvent],
          fun h => by simp [SetWrite, h], ?_⟩
  by_cases h : s.Events &&& PollerWriteEvent = PollerWriteEvent
  · simp [SetWrite, h]
  · simp [SetWrite, h, pollerSet, createEvent, or_bit_armed]

theorem DelRead_spec (p : PollerState) (s : Slot) :
    (s.Events &&& PollerReadEvent = PollerReadEvent →
      DelRead p s =
        ({ p with pending := p.pending - 1, changes := p.changes ++ [{ Ident := s.Fd, Filter := -(PollerReadEvent : Int), Flags := EV_DELETE }] }, { s with Events := s.Events ^^^ PollerReadEvent })) ∧
    (s.Events &&& PollerReadEvent ≠ PollerReadEvent → DelRead p s = (p, s)) ∧
    DelRead (DelRead p s).1 (DelRead p s).2 = DelRead p s := by
  refine ⟨fun h => by simp [DelRead, h, pollerSet, createEvent],
          fun h => by simp [DelRead, h], ?_⟩
  by_cases h : s.Events &&& PollerReadEvent = PollerReadEvent
  · have h1 : DelRead p s = ({ p with pending := p.pending - 1, changes := p.changes ++ [{ Ident := s.Fd, Filter := -(PollerReadEvent : Int), Flags := EV_DELETE }] }, { s with Events := s.Events ^^^ PollerReadEvent }) := by
      simp [DelRead, h, pollerSet, createEvent]
    rw [h1]
    have hc : (s.Events ^^^ PollerReadEvent) &&& PollerReadEvent ≠ PollerReadEvent := by
      rw [xor_bit_cleared s.Events PollerReadEvent h]
      decide
    simp [DelRead, hc]
  · simp [DelRead, h]

theorem DelWrite_spec (p : PollerState) (s : Slot) :
    (s.Events &&& PollerWriteEvent = PollerWriteEvent →
      DelWrite p s =
        ({ p with pending := p.pending - 1, changes := p.changes ++ [{ Ident := s.Fd, Filter := -(PollerWriteEvent : Int), Flags := EV_DELETE }] }, { s with Events := s.Events ^^^ PollerWriteEvent })) ∧
    (s.Events &&& PollerWriteEvent ≠ PollerWriteEvent → DelWrite p s = (p, s)) ∧
    DelWrite (DelWrite p s).1 (DelWrite p s).2 = DelWrite p s := by
  refine ⟨fun h => by simp [DelWrite, h, pollerSet, createEvent],
          fun h => by simp [DelWrite, h], ?_⟩
  by_cases h : s.Events &&& PollerWriteEvent = PollerWriteEvent
  · have h1 : DelWrite p s = ({ p with pending := p.pending - 1, changes := p.changes ++ [{ Ident := s.Fd, Filter := -(PollerWriteEvent : Int), Flags := EV_DELETE }] }, { s with Events := s.Events ^^^ PollerWriteEvent }) := by
      simp [DelWrite, h, pollerSet, createEvent]
    rw [h1]
    have hc : (s.Events ^^^ PollerWriteEvent) &&& PollerWriteEvent ≠ PollerWriteEvent := by
      rw [xor_bit_cleared s.Events PollerWriteEvent h]
      decide
    simp [DelWrite, hc]
  · simp [DelWrite, h]

/-- C7: `SetRead` (resp. `SetWrite`) is idempotent: when the slot's
read (write) mask bit is clear the call sets it, appends the one-shot
`EV_ADD|EV_ONESHOT` arm to the change list and increments `pending` by
one; when the bit is already set it changes neither the mask, `pending`,
nor the change list, so a repeated call is a no-op. Symmetrically,
`DelRead` (`DelWrite`) clears the bit, appends the `EV_DELETE` change and
decrements `pending` exactly when the bit was set, and is a no-op
otherwise. -/
theorem set_del_interest_idempotent (p : PollerState) (s : Slot) :
    ((s.Events &&& PollerReadEvent ≠ PollerReadEvent →
       SetRead p s =
         ({ p with pending := p.pending + 1, changes := p.changes ++ [{ Ident := s.Fd, Filter := -(PollerReadEvent : Int), Flags := EV_ADD ||| EV_ONESHOT }] }, { s with Events := s.Events ||| PollerReadEvent })) ∧
     (s.Events &&& PollerReadEvent = PollerReadEvent → SetRead p s = (p, s)) ∧
     SetRead (SetRead p s).1 (SetRead p s).2 = SetRead p s) ∧
    ((s.Events &&& PollerWriteEvent ≠ PollerWriteEvent →
       SetWrite p s =
         ({ p with pending := p.pending + 1, changes := p.changes ++ [{ Ident := s.Fd, Filter := -(PollerWriteEvent : Int), Flags := EV_ADD ||| EV_ONESHOT }] }, { s with Events := s.Events ||| PollerWriteEvent })) ∧
     (s.Events &&& PollerWriteEvent = PollerWriteEvent → SetWrite p s = (p, s)) ∧
     SetWrite (SetWrite p s).1 (SetWrite p s).2 = SetWrite p s) ∧
    ((s.Events &&& PollerReadEvent = PollerReadEvent →
       DelRead p s =
         ({ p with pending := p.pending - 1, changes := p.changes ++ [{ Ident := s.Fd, Filter := -(PollerReadEvent : Int), Flags := EV_DELETE }] }, { s with Events := s.Events ^^^ PollerReadEvent })) ∧
     (s.Events &&& PollerReadEvent ≠ PollerReadEvent → DelRead p s = (p, s)) ∧
     DelRead (DelRead p s).1 (DelRead p s).2 = DelRead p s) ∧
    ((s.Events &&& PollerWriteEvent = PollerWriteEvent →
       DelWrite p s =
         ({ p with pending := p.pending - 1, changes := p.changes ++ [{ Ident := s.Fd, Filter := -(PollerWriteEvent : Int), Flags := EV_DELETE }] }, { s with Events := s.Events ^^^ PollerWriteEvent })) ∧
     (s.Events &&& PollerWriteEvent ≠ PollerWriteEvent → DelWrite p s = (p, s)) ∧
     DelWrite (DelWrite p s).1 (DelWrite p s).2 = DelWrite p s) :=
  ⟨SetRead_spec p s, SetWrite_spec p s, DelRead_spec p s, DelWrite_spec p s⟩

/-- C7 witness: the facts at a concrete poller and slot (fd 5, empty
mask): arming increments `pending` and sets the bit, disarming the armed
slot undoes it, and both repeated calls are no-ops. -/
theorem set_del_interest_idempotent_witness :
    SetRead freshPoller { Fd := 5, Events := 0 } =
      ({ freshPoller with pending := 1, changes := [{ Ident := 5, Filter := -1, Flags := 17 }] },
       { Fd := 5, Events := 1 }) ∧
    DelRead freshPoller { Fd := 5, Events := 1 } =
      ({ freshPoller with pending := -1, changes := [{ Ident := 5, Filter := -1, Flags := 2 }] },
       { Fd := 5, Events := 0 }) ∧
    SetWrite freshPoller { Fd := 5, Events := 2 } = (freshPoller, { Fd := 5, Events := 2 }) ∧
    DelWrite freshPoller { Fd := 5, Events := 0 } = (freshPoller, { Fd := 5, Events := 0 }) := by
  have h1 := set_del_interest_idempotent freshPoller { Fd := 5, Events := 0 }
  have h2 := set_del_interest_idempotent freshPoller { Fd := 5, Events := 1 }
  have h3 := set_del_interest_idempotent freshPoller { Fd := 5, Events := 2 }
  refine ⟨?_, ?_, ?_, ?_⟩
  · have := h1.1.1 (by decide)
    simpa [freshPoller, PollerReadEvent, EV_ADD, EV_ONESHOT] using this
  · have := h2.2.2.1.1 (by decide)
    simpa [freshPoller, PollerReadEvent, EV_DELETE] using this
  · exact h3.2.1.2.1 (by decide)
  · exact h1.2.2.2.2.1 (by decide)

/-- C6: `Post(H)` appends `H` to the post queue, increments `pending` and
writes one byte to the waker; the drain performed by the next `Poll` that
sees the waker ready (`executePost`) empties the waker and the queue,
executes every queued handler in order — `H` exactly once more than it was
already queued — and decrements `pending` once for each. -/
theorem post_then_drain_executes_once (p : PollerState) (hId : Nat) :
    (Post p hId true).1 = none ∧
    (Post p hId true).2.posts = p.posts ++ [hId] ∧
    (Post p hId true).2.pending = p.pending + 1 ∧
    (Post p hId true).2.wakerBytes = p.wakerBytes + 1 ∧
    (executePost (Post p hId true).2).posts = [] ∧
    (executePost (Post p hId true).2).wakerBytes = 0 ∧
    (executePost (Post p hId true).2).executed = p.executed ++ p.posts ++ [hId] ∧
    (executePost (Post p hId true).2).executed.count hId
      = p.executed.count hId + p.posts.count hId + 1 ∧
    (executePost (Post p hId true).2).pending = p.pending - p.posts.length := by
  refine ⟨by simp [Post], by simp [Post], by simp [Post], by simp [Post],
          by simp [Post, executePost], by simp [Post, executePost],
          by simp [Post, executePost],
          by simp [Post, executePost, List.count_append]; omega, ?_⟩
  simp [Post, executePost]

/-- C6 witness: posting handler 3 on a fresh poller and draining executes
it exactly once, leaves the queue empty and returns `pending` to 0. -/
theorem post_then_drain_executes_once_witness :
    (Post freshPoller 3 true).1 = none ∧
    (Post freshPoller 3 true).2.posts = [3] ∧
    (Post freshPoller 3 true).2.pending = 1 ∧
    (executePost (Post freshPoller 3 true).2).executed.count 3 = 1 ∧
    (executePost (Post freshPoller 3 true).2).posts = [] ∧
    (executePost (Post freshPoller 3 true).2).pending = 0 := by
  have h := post_then_drain_executes_once freshPoller 3
  exact ⟨h.1, by simpa [freshPoller] using h.2.1, by simpa [freshPoller] using h.2.2.1,
         by simpa [freshPoller] using h.2.2.2.2.2.2.2.1,
         h.2.2.2.2.1, by simpa [freshPoller] using h.2.2.2.2.2.2.2.2⟩

/-- C8: the first `Close` on a poller whose closed flag is clear succeeds
and closes both the waker and the kqueue handle; every later `Close`
returns `io.EOF` and performs no further close (the state is unchanged),
so nothing is double-freed. -/
theorem poller_close_idempotent (p : PollerState) :
    Close (Close p).2 = (some GoErr.eof, (Close p).2) ∧
    (p.closed = false →
      (Close p).1 = none ∧ (Close p).2.closed = true ∧
      (Close p).2.wakerClosed = true ∧ (Close p).2.fdClosed = true) := by
  by_cases hc : p.closed <;> simp [Close, hc]

/-- C8 witness: on a fresh (open) poller the first `Close` succeeds and
closes waker and handle, and the second returns EOF with no state
change. -/
theorem poller_close_idempotent_witness :
    Close (Close freshPoller).2 = (some GoErr.eof, (Close freshPoller).2) ∧
    (Close freshPoller).1 = none ∧ (Close freshPoller).2.closed = true ∧
    (Close freshPoller).2.wakerClosed = true ∧ (Close freshPoller).2.fdClosed = true := by
  have h := poller_close_idempotent freshPoller
  exact ⟨h.1, (h.2 rfl).1, (h.2 rfl).2.1, (h.2 rfl).2.2.1, (h.2 rfl).2.2.2⟩

/-- C5 (divergence): `Poll` passes a nil timespec to `syscall.Kevent`
whenever `timeoutMs` is negative — in particular for the `-1` used by
`IO.PollOne` — and a nil timespec makes kevent(2) wait indefinitely when
no registered event is ready, so the call blocks instead of returning
immediately as the non-blocking contract states. -/
theorem poll_negative_timeout_blocks :
    pollKeventTimeout PollOneTimeoutMs = none ∧
    keventWaitsIndefinitely (pollKeventTimeout PollOneTimeoutMs) 0 = true ∧
    pollKeventTimeout (-1) = none ∧
    pollKeventTimeout 0 = some 0 := by
  decide

/-- C9 (divergence): the failure branch of `NewEventFd` as written
produces a single error value, not the `(nil, error)` pair its declared
result type `(*EventFd, error)` requires; the success branch returns the
pair. Errno 24 is `EMFILE`. -/
theorem new_eventfd_failure_branch_shape :
    (NewEventFd 7 24).isPair = false ∧
    NewEventFd 7 24 = NewEventFdReturn.singleValue GoErr.osError ∧
    NewEventFd 7 0 = NewEventFdReturn.pair (some 7) none := by
  decide

/-- C10: when the waker write inside `Post` fails, `Post` returns the
write error, yet the handler has already been appended to the post queue
and `pending` has already been incremented, and neither change is rolled
back: the queue is strictly longer than before the failed call. -/
theorem post_waker_write_failure_keeps_enqueue (p : PollerState) (hId : Nat) :
    (Post p hId false).1 = some GoErr.osError ∧
    (Post p hId false).2.posts = p.posts ++ [hId] ∧
    (Post p hId false).2.pending = p.pending + 1 ∧
    (Post p hId false).2.posts.length = p.posts.length + 1 ∧
    (Post p hId false).2.wakerBytes = p.wakerBytes := by
  simp [Post]

end Sonic

namespace Sonic.Websocket

/-! ## WebSocket stream theorems -/

theorem maskFrom_involution (key : List Nat) (p : List Nat) :
    ∀ i, maskFrom key i (maskFrom key i p) = p := by
  induction p with
  | nil => intro i; rfl
  | cons b bs ih =>
    intro i
    simp [maskFrom, ih (i + 1), Nat.xor_assoc, Nat.xor_self, Nat.xor_zero]

theorem maskBytes_involution (key : List Nat) (p : List Nat) :
    maskBytes key (maskBytes key p) = p :=
  maskFrom_involution key p 0

/-- C2: on an Active stream pre-seeded with `08 02 01 02` (a Close frame
without FIN), `NextMessage` returns message type None, no bytes and the
`InvalidControlFrame` error; exactly one reply is pending; that reply is
a masked Close frame whose unmasked payload decodes to close code 1002
(protocol error) with empty reason; and the state is ClosedByUs. -/
theorem next_message_corrupt_control_frame (key : List Nat) :
    NextMessage (mkActiveStream [8, 2, 1, 2] key) =
      ((MessageType.none, [], some WsError.invalidControlFrame),
       { mkActiveStream [] key with state := .closedByUs, pending := [mkMaskedFrame key OpcodeClose (EncodeCloseFramePayload CloseProtocolError [])] }) ∧
    (mkMaskedFrame key OpcodeClose (EncodeCloseFramePayload CloseProtocolError [])).IsMasked = true ∧
    (mkMaskedFrame key OpcodeClose (EncodeCloseFramePayload CloseProtocolError [])).IsClose = true ∧
    DecodeCloseFramePayload
        (mkMaskedFrame key OpcodeClose (EncodeCloseFramePayload CloseProtocolError [])).unmaskedPayload
      = (CloseProtocolError, []) := by
  refine ⟨rfl, rfl, rfl, ?_⟩
  simp [Frame.unmaskedPayload, mkMaskedFrame, maskBytes_involution,
        DecodeCloseFramePayload, EncodeCloseFramePayload, CloseProtocolError]

/-- C4: on an Active stream pre-seeded with `89 02 01 02` (a FIN Ping
with payload `{01,02}`), `NextMessage` logs the control callback
invocation `(Ping, {01,02})`, enqueues one masked Pong carrying the same
payload, flushes it to the underlying stream, and completes the read
with EOF leaving the stream Terminated. -/
theorem next_message_ping_auto_pong (key : List Nat) :
    NextMessage (mkActiveStream [137, 2, 1, 2] key) =
      ((MessageType.none, [], some WsError.eof),
       { mkActiveStream [] key with state := .terminated, controlLog := [(MessageType.ping, [1, 2])], written := [mkMaskedFrame key OpcodePong [1, 2]] }) ∧
    (mkMaskedFrame key OpcodePong [1, 2]).IsPong = true ∧
    (mkMaskedFrame key OpcodePong [1, 2]).IsMasked = true ∧
    (mkMaskedFrame key OpcodePong [1, 2]).unmaskedPayload = [1, 2] := by
  refine ⟨rfl, rfl, rfl, ?_⟩
  simp [Frame.unmaskedPayload, mkMaskedFrame, maskBytes_involution]

/-- C3: `Close(1000, "bye")` on an Active client stream writes exactly
one FIN, masked Close frame whose unmasked payload decodes to code 1000
and reason "bye", and moves the state to ClosedByUs; when the server's
Close reply `88 05 03 E8 "bye"` is then placed in the source buffer,
`NextFrame` delivers that FIN Close frame (payload decoding to the same
code and reason) and the state becomes CloseAcked. -/
theorem close_handshake_we_initiate (key : List Nat) :
    Close (mkActiveStream [] key) CloseNormal byeBytes =
      (none, { mkActiveStream [] key with state := .closedByUs, written := [closeByeFrame key] }) ∧
    (closeByeFrame key).IsFin = true ∧
    (closeByeFrame key).IsMasked = true ∧
    (closeByeFrame key).IsClose = true ∧
    DecodeCloseFramePayload (closeByeFrame key).unmaskedPayload = (CloseNormal, byeBytes) ∧
    NextFrame { mkActiveStream [] key with state := .closedByUs, written := [closeByeFrame key], src := serverCloseReplyBytes } =
      (Except.ok serverCloseReplyFrame, { mkActiveStream [] key with state := .closeAcked, written := [closeByeFrame key] }) ∧
    serverCloseReplyFrame.IsFin = true ∧
    serverCloseReplyFrame.IsClose = true ∧
    DecodeCloseFramePayload serverCloseReplyFrame.payload = (CloseNormal, byeBytes) := by
  refine ⟨rfl, rfl, rfl, rfl, ?_, rfl, rfl, rfl, by decide⟩
  simp [closeByeFrame, Frame.unmaskedPayload, mkMaskedFrame, maskBytes_involution,
        DecodeCloseFramePayload, EncodeCloseFramePayload, CloseNormal, byeBytes]

end Sonic.Websocket

namespace Sonic.Websocket

theorem takeExact_length {n : Nat} {bs xs ys : List Nat}
    (h : takeExact n bs = some (xs, ys)) : ys.length ≤ bs.length := by
  unfold takeExact at h
  split at h
  · simp only [Option.some.injEq, Prod.mk.injEq] at h
    rw [← h.2]
    simp
  · exact absurd h (by simp)

theorem parseLen_length {len7 plen : Nat} {rest r1 : List Nat}
    (h : parseLen len7 rest = some (plen, r1)) : r1.length ≤ rest.length := by
  unfold parseLen at h
  split at h
  · simp only [Option.some.injEq, Prod.mk.injEq] at h
    rw [← h.2]
  · split at h
    · cases hte : takeExact 2 rest with
      | none => rw [hte] at h; simp at h
      | some pr =>
        obtain ⟨ext, r⟩ := pr
        rw [hte] at h
        simp only [Option.some.injEq, Prod.mk.injEq] at h
        rw [← h.2]
        exact takeExact_length hte
    · cases hte : takeExact 8 rest with
      | none => rw [hte] at h; simp at h
      | some pr =>
        obtain ⟨ext, r⟩ := pr
        rw [hte] at h
        simp only [Option.some.injEq, Prod.mk.injEq] at h
        rw [← h.2]
        exact takeExact_length hte

theorem decodeFrame_length {bs rest : List Nat} {f : Frame}
    (h : decodeFrame bs = some (f, rest)) : rest.length + 2 ≤ bs.length := by
  match bs with
  | [] => exact absurd h (by simp [decodeFrame])
  | [b0] => exact absurd h (by simp [decodeFrame])
  | b0 :: b1 :: tail =>
    simp only [decodeFrame] at h
    cases hlen : parseLen (b1 % 128) tail with
    | none => rw [hlen] at h; simp at h
    | some pr1 =>
      obtain ⟨plen, r1⟩ := pr1
      simp only [hlen] at h
      have hr1 := parseLen_length hlen
      cases hkey : (if b1 / 128 % 2 == 1 then takeExact 4 r1 else some ([], r1)) with
      | none => rw [hkey] at h; simp at h
      | some pr2 =>
        obtain ⟨key, r2⟩ := pr2
        simp only [hkey] at h
        have hr2 : r2.length ≤ r1.length := by
          by_cases hm : (b1 / 128 % 2 == 1) = true
          · rw [if_pos hm] at hkey
            exact takeExact_length hkey
          · rw [if_neg hm] at hkey
            simp only [Option.some.injEq, Prod.mk.injEq] at hkey
            rw [← hkey.2]
        cases hpl : takeExact plen r2 with
        | none => rw [hpl] at h; simp at h
        | some pr3 =>
          obtain ⟨pl, r3⟩ := pr3
          simp only [hpl] at h
          have hr3 := takeExact_length hpl
          simp only [Option.some.injEq, Prod.mk.injEq] at h
          have hrr : r3 = rest := h.2
          rw [hrr] at hr3
          simp only [List.length_cons]
          omega

theorem framesIn_length {bs rest : List Nat} {fs : List Frame}
    (h : FramesIn bs fs rest) : 2 * fs.length + rest.length ≤ bs.length := by
  induction h with
  | nil bs => simp
  | cons hdec htail ih =>
    have hd := decodeFrame_length hdec
    simp only [List.length_cons]
    omega

theorem nextMessageAux_cont_tail (fs : List Frame) :
    ∀ (fuel : Nat) (s : WsStream) (acc : List Nat) (op : Nat) (rest : List Nat),
      s.state = StreamState.active →
      FramesIn s.src fs rest →
      fs ≠ [] →
      (∀ f ∈ fs, f.opcode = OpcodeContinuation) →
      FinPattern fs →
      fs.length ≤ fuel →
      nextMessageAux fuel s acc (some op) =
        ((messageTypeOf op, acc ++ (fs.map Frame.unmaskedPayload).flatten, none),
         { s with src := rest, fragOpcode := none }) := by
  induction fs with
  | nil => intro fuel s acc op rest _ _ hne _ _ _; exact absurd rfl hne
  | cons f fs ih =>
    intro fuel s acc op rest hstate hin hne hcont hfin hfuel
    cases fuel with
    | zero => simp at hfuel
    | succ fuel =>
      have hterm : ¬ s.state = StreamState.terminated := by simp [hstate]
      cases hin with
      | @cons _ mid _ _ _ hdec htail =>
        have hop : f.opcode = OpcodeContinuation := hcont f (by simp)
        cases fs with
        | nil =>
          have hfin1 : f.fin = true := hfin
          cases htail
          simp only [nextMessageAux]
          rw [if_neg hterm]
          simp [hdec, hop, hfin1, isControlOpcode, OpcodeContinuation,
                OpcodeClose, OpcodePing, OpcodePong]
        | cons g fs2 =>
          have hfin0 : f.fin = false := hfin.1
          have hbound := framesIn_length htail
          simp only [nextMessageAux]
          rw [if_neg hterm]
          simp only [hdec, hop, hfin0, isControlOpcode, OpcodeContinuation,
                     OpcodeClose, OpcodePing, OpcodePong]
          rw [ih fuel { s with src := mid } (acc ++ f.unmaskedPayload) op rest
                hstate htail (by simp) (fun x hx => hcont x (List.mem_cons_of_mem f hx))
                hfin.2 (by simp only [List.length_cons] at hfuel ⊢; omega)]
          simp [List.append_assoc]

end Sonic.Websocket

namespace Sonic.Websocket

/-- C1: on an Active stream with no partial message pending whose source
buffer parses into a fragmented data message — a first frame carrying a
data opcode (Text or Binary), continuation frames after it, FIN clear on
all but the last frame — followed by bytes `rest`, `NextMessage`
assembles exactly one logical message: it returns the message type of the
first frame's opcode and the concatenation of the unmasked payloads of
all the data frames, with no error, and the stream keeps its state
(Active) with exactly those frames consumed from the source. -/
theorem next_message_assembles_fragments
    (s : WsStream) (f0 : Frame) (fs : List Frame) (rest : List Nat)
    (hstate : s.state = StreamState.active)
    (hfrag : s.fragOpcode = none)
    (hin : FramesIn s.src (f0 :: fs) rest)
    (hop : f0.opcode = OpcodeText ∨ f0.opcode = OpcodeBinary)
    (hcont : ∀ f ∈ fs, f.opcode = OpcodeContinuation)
    (hfin : FinPattern (f0 :: fs)) :
    NextMessage s =
      ((messageTypeOf f0.opcode,
        ((f0 :: fs).map Frame.unmaskedPayload).flatten, none),
       { s with src := rest, fragOpcode := none }) := by
  have hterm : ¬ s.state = StreamState.terminated := by simp [hstate]
  have hbound := framesIn_length hin
  have hctl : isControlOpcode f0.opcode = false := by
    rcases hop with h1 | h1 <;> rw [h1] <;> rfl
  have hnc : ¬ f0.opcode = OpcodeContinuation := by
    rcases hop with h1 | h1 <;> rw [h1] <;> decide
  cases hin with
  | @cons _ mid _ _ _ hdec htail =>
    cases fs with
    | nil =>
      have hfin1 : f0.fin = true := hfin
      cases htail
      simp only [NextMessage, hfrag, nextMessageAux]
      rw [if_neg hterm]
      simp [hdec, hctl, hnc, hfin1]
    | cons g fs2 =>
      have hfin0 : f0.fin = false := hfin.1
      simp only [NextMessage, hfrag, nextMessageAux]
      rw [if_neg hterm]
      simp only [hdec, hctl, hnc, hfin0, List.nil_append, Bool.false_eq_true,
                 if_false]
      rw [nextMessageAux_cont_tail (g :: fs2) s.src.length
            { s with src := mid, fragOpcode := none }
            f0.unmaskedPayload f0.opcode rest hstate htail (by simp) hcont hfin.2
            (by simp only [List.length_cons] at hbound ⊢; omega)]
      simp [List.append_assoc]

/-- C1 witness: the literal scenario `01 02 01 02 80 02 03 04` on an
Active stream: `NextMessage` returns Text with payload `{01,02,03,04}`
and the stream remains Active with the source fully consumed. -/
theorem next_message_assembles_fragments_witness :
    NextMessage (mkActiveStream [1, 2, 1, 2, 128, 2, 3, 4] [0, 0, 0, 0]) =
      ((MessageType.text, [1, 2, 3, 4], none), mkActiveStream [] [0, 0, 0, 0]) := by
  have h := next_message_assembles_fragments
      (mkActiveStream [1, 2, 1, 2, 128, 2, 3, 4] [0, 0, 0, 0]) c1frame1 [c1frame2] []
      rfl rfl
      (@FramesIn.cons [1, 2, 1, 2, 128, 2, 3, 4] [128, 2, 3, 4] [] c1frame1 [c1frame2]
        (by decide)
        (@FramesIn.cons [128, 2, 3, 4] [] [] c1frame2 [] (by decide) (FramesIn.nil [])))
      (Or.inl rfl) (by decide) ⟨rfl, rfl⟩
  exact h

end Sonic.Websocket

namespace Sonic

/-- C10 witness: posting handler 5 on a fresh poller with a failing waker
write returns the error while the handler stays queued and `pending`
stays incremented. -/
theorem post_waker_write_failure_keeps_enqueue_witness :
    (Post freshPoller 5 false).1 = some GoErr.osError ∧
    (Post freshPoller 5 false).2.posts = [5] ∧
    (Post freshPoller 5 false).2.pending = 1 := by
  have h := post_waker_write_failure_keeps_enqueue freshPoller 5
  exact ⟨h.1, by simpa [freshPoller] using h.2.1,
         by simpa [freshPoller] using h.2.2.1⟩

end Sonic

namespace Sonic.Websocket

/-- C2 witness: the corrupt-control-frame scenario at the concrete mask
key `07 0B 0D 11`. -/
theorem next_message_corrupt_control_frame_witness :
    (NextMessage (mkActiveStream [8, 2, 1, 2] [7, 11, 13, 17])).1 =
      (MessageType.none, [], some WsError.invalidControlFrame) ∧
    (NextMessage (mkActiveStream [8, 2, 1, 2] [7, 11, 13, 17])).2.state =
      StreamState.closedByUs ∧
    (NextMessage (mkActiveStream [8, 2, 1, 2] [7, 11, 13, 17])).2.pending.length = 1 := by
  have h := next_message_corrupt_control_frame [7, 11, 13, 17]
  rw [h.1]
  exact ⟨rfl, rfl, rfl⟩

/-- C4 witness: the Ping scenario at the concrete mask key `01 02 03 04`. -/
theorem next_message_ping_auto_pong_witness :
    (NextMessage (mkActiveStream [137, 2, 1, 2] [1, 2, 3, 4])).1 =
      (MessageType.none, [], some WsError.eof) ∧
    (NextMessage (mkActiveStream [137, 2, 1, 2] [1, 2, 3, 4])).2.state =
      StreamState.terminated ∧
    (NextMessage (mkActiveStream [137, 2, 1, 2] [1, 2, 3, 4])).2.controlLog =
      [(MessageType.ping, [1, 2])] ∧
    (mkMaskedFrame [1, 2, 3, 4] OpcodePong [1, 2]).unmaskedPayload = [1, 2] := by
  have h := next_message_ping_auto_pong [1, 2, 3, 4]
  rw [h.1]
  exact ⟨rfl, rfl, rfl, h.2.2.2⟩

/-- C3 witness: the close handshake at the concrete mask key `05 06 07 08`. -/
theorem close_handshake_we_initiate_witness :
    (Close (mkActiveStream [] [5, 6, 7, 8]) CloseNormal byeBytes).2.state =
      StreamState.closedByUs ∧
    (NextFrame { mkActiveStream [] [5, 6, 7, 8] with state := .closedByUs, written := [closeByeFrame [5, 6, 7, 8]], src := serverCloseReplyBytes }).2.state =
      StreamState.closeAcked ∧
    DecodeCloseFramePayload (closeByeFrame [5, 6, 7, 8]).unmaskedPayload =
      (CloseNormal, byeBytes) := by
  have h := close_handshake_we_initiate [5, 6, 7, 8]
  refine ⟨?_, ?_, h.2.2.2.2.1⟩
  · rw [h.1]
  · rw [h.2.2.2.2.2.1]

end Sonic.Websocket
